import Mathlib

/-!
Shallow embedding of the `waves` ultrasonic-transducer driver
(`src/driver.py`, with the injected delay/phase functions of
`src/hover.py`), together with theorems about the pulse-train it
assembles.  Real-valued delays and phase fractions are embedded as
rationals; Python's `int()` truncation and `%` are modelled explicitly.
-/

/-- A pigpio pulse: bits to set, bits to clear, and a duration in frames
(`pigpio.pulse(gpio_on, gpio_off, delay)`). -/
structure Pulse where
  gpioOn : ℕ
  gpioOff : ℕ
  delay : ℤ
deriving DecidableEq

/-- The `Transducer` class from `driver.py`: an id, a 2-D location in metres and the
assigned (ordered) GPIO pin pair. -/
structure Transducer where
  id : ℕ
  location : ℚ × ℚ
  pins : ℕ × ℕ
deriving DecidableEq

namespace UltrasonicDriver

def v_sound : ℤ := 343

def frames_per_second : ℤ := 1000000

def frames_per_loop : ℤ := 25

def frames_high : ℤ := 12

def frames_low : ℤ := 13

def transducer_latency : ℤ := 11

def sync_pin : ℕ := 4

def drive_pins : List (ℕ × ℕ) :=
  [(17, 27), (22, 5), (6, 8), (19, 26), (18, 23), (24, 25), (7, 16), (20, 21)]

/-- Python's `int()` applied to a rational: truncation toward zero. -/
def pyint (q : ℚ) : ℤ := if 0 ≤ q then ⌊q⌋ else ⌈q⌉

/-- The value `delay_frames` after the three accumulation steps of `recalculate`
(lines 96-103): delay expressed in frames, plus the phase fraction of a
loop, plus the transducer latency. -/
def schedFrames (delay phase : ℚ) : ℚ :=
  delay * (frames_per_second : ℚ) + phase * (frames_per_loop : ℚ) + (transducer_latency : ℚ)

/-- Line 106: `on_pulse_time = int(delay_frames) % frames_per_loop`. -/
def onPulseTime (delay phase : ℚ) : ℤ :=
  pyint (schedFrames delay phase) % frames_per_loop

/-- Line 107: `off_pulse_time = int(delay_frames + frames_high) % frames_per_loop`. -/
def offPulseTime (delay phase : ℚ) : ℤ :=
  pyint (schedFrames delay phase + (frames_high : ℚ)) % frames_per_loop

/-- Line 108: `on_remainder = frames_per_loop - (on_pulse_time + frames_high)`. -/
def onRemainder (delay phase : ℚ) : ℤ :=
  frames_per_loop - (onPulseTime delay phase + frames_high)

/-- Line 109: `off_remainder = frames_per_loop - (off_pulse_time + frames_low)`. -/
def offRemainder (delay phase : ℚ) : ℤ :=
  frames_per_loop - (offPulseTime delay phase + frames_low)

/-- The `pulses` list built for the primary pin `pins[0]` (lines 110-123). -/
def primaryPulses (pins : ℕ × ℕ) (delay phase : ℚ) : List Pulse :=
  if onPulseTime delay phase < offPulseTime delay phase then
    [⟨0, 1 <<< pins.1, onPulseTime delay phase⟩,
     ⟨1 <<< pins.1, 0, frames_high⟩,
     ⟨0, 1 <<< pins.1, onRemainder delay phase⟩]
  else
    [⟨1 <<< pins.1, 0, offPulseTime delay phase⟩,
     ⟨0, 1 <<< pins.1, frames_low⟩,
     ⟨1 <<< pins.1, 0, offRemainder delay phase⟩]

/-- The `invrse` list built for the paired pin `pins[1]` (lines 115-127). -/
def inversePulses (pins : ℕ × ℕ) (delay phase : ℚ) : List Pulse :=
  if onPulseTime delay phase < offPulseTime delay phase then
    [⟨1 <<< pins.2, 0, onPulseTime delay phase⟩,
     ⟨0, 1 <<< pins.2, frames_high⟩,
     ⟨1 <<< pins.2, 0, onRemainder delay phase⟩]
  else
    [⟨0, 1 <<< pins.2, offPulseTime delay phase⟩,
     ⟨1 <<< pins.2, 0, frames_low⟩,
     ⟨0, 1 <<< pins.2, offRemainder delay phase⟩]

/-- The sync/trigger pulse sequence submitted first by `recalculate`
(lines 90-91): one frame high, `frames_per_loop - 1` frames low. -/
def syncPulses : List Pulse :=
  [⟨1 <<< sync_pin, 0, 1⟩, ⟨0, 1 <<< sync_pin, frames_per_loop - 1⟩]

/-- The level a given pin holds, frame by frame, while a pulse list plays:
each pulse first applies its set/clear masks, then holds for its
duration.  `init` is the pin's level before the list starts. -/
def pinLevelSeq : List Pulse → ℕ → Bool → List Bool
  | [], _, _ => []
  | pu :: rest, p, cur =>
    let lvl := if pu.gpioOn.testBit p then true
               else if pu.gpioOff.testBit p then false
               else cur
    List.replicate pu.delay.toNat lvl ++ pinLevelSeq rest p lvl

/-- A 25-frame level sequence that is high on exactly one contiguous cyclic
interval of `width` frames (starting at some frame `s`). -/
def isCyclicHigh (w : List Bool) (width : ℕ) : Prop :=
  w.length = 25 ∧
    ∃ s, s < 25 ∧ ∀ i < 25, w.getD i false = decide ((i + 25 - s) % 25 < width)

instance (w : List Bool) (width : ℕ) : Decidable (isCyclicHigh w width) := by
  unfold isCyclicHigh
  infer_instance

end UltrasonicDriver

namespace pigpio

/-- Observable state of the pigpio daemon (the external playback engine):
whether a connection is open, which pins were configured as outputs, the
pad strength setting, the set of pins currently driven high, the queue of
submitted pulse sequences, and whether a waveform is being transmitted. -/
structure EngineState where
  connected : Bool
  outputs : List ℕ
  padStrength : Option (ℕ × ℕ)
  high : List ℕ
  queued : List (List Pulse)
  sending : Bool
deriving DecidableEq

/-- Connection call `pigpio.pi()`: open the connection. -/
def pi (s : EngineState) : EngineState := { s with connected := true }

/-- Engine call `set_mode(pin, pigpio.OUTPUT)`. -/
def set_mode (s : EngineState) (p : ℕ) : EngineState := { s with outputs := s.outputs ++ [p] }

/-- Engine call `set_pad_strength(pad, strength)`. -/
def set_pad_strength (s : EngineState) (pad strength : ℕ) : EngineState :=
  { s with padStrength := some (pad, strength) }

/-- Engine call `write(pin, level)`: drive a pin directly. -/
def write (s : EngineState) (p : ℕ) (lvl : Bool) : EngineState :=
  { s with high := if lvl then p :: s.high.filter (fun q => q != p)
                   else s.high.filter (fun q => q != p) }

/-- Engine call `wave_tx_stop()`. -/
def wave_tx_stop (s : EngineState) : EngineState := { s with sending := false }

/-- Engine call `wave_clear()`: forget every queued pulse sequence. -/
def wave_clear (s : EngineState) : EngineState := { s with queued := [] }

/-- Engine call `wave_add_generic(pulses)`: append one submitted pulse sequence. -/
def wave_add_generic (s : EngineState) (pulses : List Pulse) : EngineState :=
  { s with queued := s.queued ++ [pulses] }

/-- Engine call `wave_create()`: materialize the queued sequences as a wave handle. -/
def wave_create (s : EngineState) : EngineState := s

/-- Engine call `wave_send_repeat(wave)`: start repeating playback. -/
def wave_send_repeat (s : EngineState) : EngineState := { s with sending := true }

end pigpio

namespace UltrasonicDriver

/-- The 16 drive pins managed by the driver (both pins of every pair). -/
def managed_pins : List ℕ := drive_pins.flatMap fun pr => [pr.1, pr.2]

/-- Method `UltrasonicDriver.stop` (lines 79-83): halt transmission, then write
both pins of every drive pair low. -/
def stop (s : pigpio.EngineState) : pigpio.EngineState :=
  drive_pins.foldl (fun st pr => pigpio.write (pigpio.write st pr.1 false) pr.2 false)
    (pigpio.wave_tx_stop s)

/-- The full list of pulse sequences submitted by one `recalculate` call,
in submission order: the sync sequence first, then for every target its
primary (`pulses`) and paired (`invrse`) sequences. -/
def recalcWave (targets : List Transducer) (focus_fn : Transducer → ℚ × ℚ → ℚ)
    (phase_fn : Transducer → ℚ) (focus : ℚ × ℚ) : List (List Pulse) :=
  syncPulses :: targets.flatMap fun t =>
    [primaryPulses t.pins (focus_fn t focus) (phase_fn t),
     inversePulses t.pins (focus_fn t focus) (phase_fn t)]

/-- Method `UltrasonicDriver.recalculate` (lines 85-133) as a transformation of
engine state: clear, submit all sequences, create the wave, start repeat. -/
def recalculate (targets : List Transducer) (focus_fn : Transducer → ℚ × ℚ → ℚ)
    (phase_fn : Transducer → ℚ) (focus : ℚ × ℚ) (s : pigpio.EngineState) :
    pigpio.EngineState :=
  pigpio.wave_send_repeat (pigpio.wave_create
    ((recalcWave targets focus_fn phase_fn focus).foldl pigpio.wave_add_generic
      (pigpio.wave_clear s)))

/-- The validation loop of `__init__` (lines 55-59): walk the targets'
pin pairs, removing each from the set of still-unused legal pairs, and
fail on a pair that is absent (illegal, or already used). -/
def validatePins : List (ℕ × ℕ) → List (ℕ × ℕ) → Except String Unit
  | _, [] => .ok ()
  | used, pr :: rest =>
    if pr ∈ used then validatePins (used.erase pr) rest
    else .error "Pin pair is either invalid or has been used already."

/-- Constructor `UltrasonicDriver.__init__` (lines 53-77): validate the targets, then
connect, configure the pins, lower pad strength, stop (pins low), and
recalculate.  On a validation failure nothing touches the engine. -/
def initDriver (targets : List Transducer) (focus_fn : Transducer → ℚ × ℚ → ℚ)
    (phase_fn : Transducer → ℚ) (focus : ℚ × ℚ) (s : pigpio.EngineState) :
    Except String Unit × pigpio.EngineState :=
  match validatePins drive_pins (targets.map Transducer.pins) with
  | .error e => (.error e, s)
  | .ok _ =>
    let s1 := pigpio.pi s
    let s2 := pigpio.set_mode s1 sync_pin
    let s3 := drive_pins.foldl (fun st pr => pigpio.set_mode (pigpio.set_mode st pr.1) pr.2) s2
    let s4 := pigpio.set_pad_strength s3 0 1
    let s5 := stop s4
    (.ok (), recalculate targets focus_fn phase_fn focus s5)

end UltrasonicDriver

/-- Function `focus_delay` from `hover.py`: always zero delay. -/
def focus_delay : Transducer → ℚ × ℚ → ℚ := fun _ _ => 0

/-- Function `phase_diff_fn` from `hover.py`: always zero phase offset. -/
def phase_diff_fn : Transducer → ℚ := fun _ => 0

namespace SharedBus

/-- Modelled from the spec: the single-pin (shared-bus) generation of the
driver is described by the spec (Phase Scheduler, shared-bus Pulse-Train
Assembler, Waveform Streamer, error handling) but its code is not under
`src/`; `src/driver.py` is the differential generation.  Per transducer
the scheduler computes the delay via the injected function, rejects a
negative delay with a ValidationError, converts it to frames by
multiplying by the sample rate, and emits the two switch events
`(pin, on, frames mod 25)` and `(pin, off, (frames + on_width) mod 25)`.
The single pin of a transducer is taken to be the first of its pair. -/
def collectEvents (delayFn : Transducer → ℚ × ℚ → ℚ) (focus : ℚ × ℚ) :
    List Transducer → Except String (List (ℕ × Bool × ℤ))
  | [] => .ok []
  | t :: ts =>
    if delayFn t focus < 0 then
      .error "ValidationError: delay function returned a negative value"
    else
      match collectEvents delayFn focus ts with
      | .error e => .error e
      | .ok rest =>
        let frames := UltrasonicDriver.pyint (delayFn t focus * 1000000)
        .ok ((t.pins.1, true, frames % 25) :: (t.pins.1, false, (frames + 12) % 25) :: rest)

/-- Modelled from the spec: the shared-bus assembler's cursor walk.  For
each event in frame order: emit an idle pulse spanning any gap up to the
event's frame, then a zero-duration pulse setting or clearing the pin;
after the last event an idle pulse brings the total to the loop length. -/
def emitPulses : ℤ → List (ℕ × Bool × ℤ) → List Pulse
  | cursor, [] => [⟨0, 0, 25 - cursor⟩]
  | cursor, (pin, lvl, f) :: rest =>
    (if cursor < f then [(⟨0, 0, f - cursor⟩ : Pulse)] else []) ++
      (if lvl then (⟨1 <<< pin, 0, 0⟩ : Pulse) else (⟨0, 1 <<< pin, 0⟩ : Pulse)) ::
        emitPulses (max cursor f) rest

/-- Modelled from the spec: the single-pin generation's `recalculate`.
It clears the engine queue, collects and validates the switch events
(delay check before any queue submission), and only then assembles,
submits and starts the merged pulse train; on a ValidationError the
engine is left with nothing queued and playback is not started by this
call. -/
def recalculate (targets : List Transducer) (delayFn : Transducer → ℚ × ℚ → ℚ)
    (focus : ℚ × ℚ) (s : pigpio.EngineState) :
    Except String Unit × pigpio.EngineState :=
  let s1 := pigpio.wave_clear s
  match collectEvents delayFn focus targets with
  | .error e => (.error e, s1)
  | .ok events =>
    let pulses := emitPulses 0 (List.insertionSort (fun a b : ℕ × Bool × ℤ => a.2.2 ≤ b.2.2) events)
    (.ok (), pigpio.wave_send_repeat (pigpio.wave_create (pigpio.wave_add_generic s1 pulses)))

end SharedBus

/-- A delay function that always reports a (physically meaningless)
negative flight time. -/
def neg_delay_fn : Transducer → ℚ × ℚ → ℚ := fun _ _ => -1

/-- An engine that has never been touched. -/
def idleEngine : pigpio.EngineState := ⟨false, [], none, [], [], false⟩

/-- An engine mid-playback: connected, pins configured, two pins high,
one queued sequence, transmitting. -/
def busyEngine : pigpio.EngineState :=
  ⟨true, [4, 17, 27], some (0, 1), [17, 20], [[⟨0, 0, 25⟩]], true⟩

/-! Helper lemmas -/

namespace UltrasonicDriver

theorem testBit_one_shiftLeft (p : ℕ) : (1 <<< p).testBit p = true := by
  rw [Nat.one_shiftLeft]
  exact Nat.testBit_two_pow_self

theorem pyint_add_int_of_nonneg (q : ℚ) (n : ℤ) (hq : 0 ≤ q) (hn : 0 ≤ n) :
    pyint (q + (n : ℚ)) = pyint q + n := by
  have hqn : (0 : ℚ) ≤ q + (n : ℚ) := by
    have : (0 : ℚ) ≤ (n : ℚ) := by exact_mod_cast hn
    linarith
  simp only [pyint, if_pos hq, if_pos hqn, Int.floor_add_int]

theorem pyint_add_int_or (q : ℚ) (n : ℤ) (hn : 0 ≤ n) :
    pyint (q + (n : ℚ)) = pyint q + n ∨ pyint (q + (n : ℚ)) = pyint q + n - 1 := by
  rcases le_or_lt 0 q with hq | hq
  · exact Or.inl (pyint_add_int_of_nonneg q n hq hn)
  · rcases le_or_lt 0 (q + (n : ℚ)) with hqn | hqn
    · have hfl : ⌊q + (n : ℚ)⌋ = ⌊q⌋ + n := Int.floor_add_int q n
      have h1 : ⌊q⌋ ≤ ⌈q⌉ := Int.floor_le_ceil q
      have h2 : ⌈q⌉ ≤ ⌊q⌋ + 1 := Int.ceil_le_floor_add_one q
      simp only [pyint, if_pos hqn, if_neg (not_le.2 hq)]
      omega
    · left
      simp only [pyint, if_neg (not_le.2 hq), if_neg (not_le.2 hqn), Int.ceil_add_int]

theorem frames_high_cast : ((frames_high : ℤ) : ℚ) = ((12 : ℤ) : ℚ) := by
  norm_num [frames_high]

theorem onPulseTime_eq (delay phase : ℚ) :
    onPulseTime delay phase = pyint (schedFrames delay phase) % 25 := rfl

theorem offPulseTime_eq_or (delay phase : ℚ) :
    offPulseTime delay phase = (pyint (schedFrames delay phase) + 12) % 25 ∨
      offPulseTime delay phase = (pyint (schedFrames delay phase) + 11) % 25 := by
  have h := pyint_add_int_or (schedFrames delay phase) 12 (by norm_num)
  unfold offPulseTime
  rw [frames_high_cast]
  simp only [frames_per_loop]
  rcases h with h | h
  · exact Or.inl (by rw [h])
  · exact Or.inr (by rw [h]; omega)

theorem offPulseTime_eq_of_nonneg (delay phase : ℚ) (h : 0 ≤ schedFrames delay phase) :
    offPulseTime delay phase = (pyint (schedFrames delay phase) + 12) % 25 := by
  unfold offPulseTime
  rw [frames_high_cast, pyint_add_int_of_nonneg _ 12 h (by norm_num)]
  simp only [frames_per_loop]

end UltrasonicDriver

/-! Claim theorems -/

namespace UltrasonicDriver

/-- Claim C1: for every transducer processed by `recalculate`, in both the
non-wrapping and wrapping branch, each of the three emitted segment
durations (lead-in, active width, remainder) is non-negative and the
three sum exactly to `frames_per_loop` — for the primary and for the
paired pin's sequence alike, for every (even negative) delay and phase. -/
theorem c1_segment_durations (pins : ℕ × ℕ) (delay phase : ℚ) :
    (∀ pu ∈ primaryPulses pins delay phase, 0 ≤ pu.delay) ∧
    ((primaryPulses pins delay phase).map Pulse.delay).sum = frames_per_loop ∧
    (∀ pu ∈ inversePulses pins delay phase, 0 ≤ pu.delay) ∧
    ((inversePulses pins delay phase).map Pulse.delay).sum = frames_per_loop := by
  have hON := onPulseTime_eq delay phase
  have hOFF := offPulseTime_eq_or delay phase
  unfold primaryPulses inversePulses onRemainder offRemainder
  simp only [frames_per_loop, frames_high, frames_low]
  rcases hOFF with hOFF | hOFF <;>
    split_ifs with hbr <;>
    simp [List.forall_mem_cons] <;>
    omega

/-- Witness for C1 at pins (17, 27), zero delay and phase. -/
theorem c1_segment_durations_witness :
    (∀ pu ∈ primaryPulses (17, 27) 0 0, 0 ≤ pu.delay) ∧
    ((primaryPulses (17, 27) 0 0).map Pulse.delay).sum = frames_per_loop :=
  ⟨(c1_segment_durations (17, 27) 0 0).1, (c1_segment_durations (17, 27) 0 0).2.1⟩

end UltrasonicDriver

namespace UltrasonicDriver

theorem pinLevelSeq_clear_set_clear (p : ℕ) (a b c : ℤ) (init : Bool) :
    pinLevelSeq [⟨0, 1 <<< p, a⟩, ⟨1 <<< p, 0, b⟩, ⟨0, 1 <<< p, c⟩] p init =
      List.replicate a.toNat false ++ List.replicate b.toNat true ++
        List.replicate c.toNat false := by
  simp [pinLevelSeq, testBit_one_shiftLeft]

theorem pinLevelSeq_set_clear_set (p : ℕ) (a b c : ℤ) (init : Bool) :
    pinLevelSeq [⟨1 <<< p, 0, a⟩, ⟨0, 1 <<< p, b⟩, ⟨1 <<< p, 0, c⟩] p init =
      List.replicate a.toNat true ++ List.replicate b.toNat false ++
        List.replicate c.toNat true := by
  simp [pinLevelSeq, testBit_one_shiftLeft]

theorem cyclic_nonwrap : ∀ k, k < 13 →
    isCyclicHigh (List.replicate k false ++ List.replicate 12 true ++
      List.replicate (13 - k) false) 12 := by
  decide

theorem cyclic_wrap : ∀ k, k < 12 →
    isCyclicHigh (List.replicate k true ++ List.replicate 13 false ++
      List.replicate (12 - k) true) 12 := by
  decide

/-- Claim C2: for every transducer and every non-negative delay and phase,
the primary pin's pulse sequence holds the pin high for exactly
`frames_high` frames per loop, in one contiguous cyclic interval, in both
construction branches (and from any initial pin level). -/
theorem c2_primary_contiguous_high (pins : ℕ × ℕ) (delay phase : ℚ)
    (hd : 0 ≤ delay) (hph : 0 ≤ phase) (init : Bool) :
    isCyclicHigh (pinLevelSeq (primaryPulses pins delay phase) pins.1 init)
      frames_high.toNat := by
  have hx : (0 : ℚ) ≤ schedFrames delay phase := by
    have h1 : (0 : ℚ) ≤ delay * ((frames_per_second : ℤ) : ℚ) := by
      apply mul_nonneg hd
      norm_num [frames_per_second]
    have h2 : (0 : ℚ) ≤ phase * ((frames_per_loop : ℤ) : ℚ) := by
      apply mul_nonneg hph
      norm_num [frames_per_loop]
    have h3 : (0 : ℚ) ≤ ((transducer_latency : ℤ) : ℚ) := by
      norm_num [transducer_latency]
    unfold schedFrames
    linarith
  have hON := onPulseTime_eq delay phase
  have hOFF := offPulseTime_eq_of_nonneg delay phase hx
  have hFH : frames_high.toNat = 12 := rfl
  rw [hFH]
  by_cases hbr : onPulseTime delay phase < offPulseTime delay phase
  · obtain ⟨k, hk, hak, hrk⟩ :
        ∃ k : ℕ, k < 13 ∧ (onPulseTime delay phase).toNat = k ∧
          (onRemainder delay phase).toNat = 13 - k := by
      refine ⟨(onPulseTime delay phase).toNat, ?_, rfl, ?_⟩
      · omega
      · simp only [onRemainder, frames_per_loop, frames_high]
        omega
    unfold primaryPulses
    rw [if_pos hbr, pinLevelSeq_clear_set_clear, hak, hrk,
      show frames_high.toNat = 12 from rfl]
    exact cyclic_nonwrap k hk
  · obtain ⟨k, hk, hak, hrk⟩ :
        ∃ k : ℕ, k < 12 ∧ (offPulseTime delay phase).toNat = k ∧
          (offRemainder delay phase).toNat = 12 - k := by
      refine ⟨(offPulseTime delay phase).toNat, ?_, rfl, ?_⟩
      · omega
      · simp only [offRemainder, frames_per_loop, frames_low]
        omega
    unfold primaryPulses
    rw [if_neg hbr, pinLevelSeq_set_clear_set, hak, hrk,
      show frames_low.toNat = 13 from rfl]
    exact cyclic_wrap k hk

/-- Witness for C2 at pins (17, 27), zero delay and phase, initial level low. -/
theorem c2_primary_contiguous_high_witness :
    isCyclicHigh (pinLevelSeq (primaryPulses (17, 27) 0 0) 17 false)
      frames_high.toNat :=
  c2_primary_contiguous_high (17, 27) 0 0 (le_refl 0) (le_refl 0) false

end UltrasonicDriver

namespace UltrasonicDriver

/-- Claim C3: when `on_pulse_time >= off_pulse_time` the assembler selects
the off-width/`off_pulse_time` branch, and in both branches the paired
pin's 3-segment sequence is the exact bitwise complement of the primary
pin's: the same three durations, with the pin level inverted at every
frame (for any initial levels). -/
theorem c3_branch_and_complement (pins : ℕ × ℕ) (delay phase : ℚ)
    (initA initB : Bool) :
    (offPulseTime delay phase ≤ onPulseTime delay phase →
      primaryPulses pins delay phase =
        [⟨1 <<< pins.1, 0, offPulseTime delay phase⟩,
         ⟨0, 1 <<< pins.1, frames_low⟩,
         ⟨1 <<< pins.1, 0, offRemainder delay phase⟩]) ∧
    (inversePulses pins delay phase).map Pulse.delay =
      (primaryPulses pins delay phase).map Pulse.delay ∧
    pinLevelSeq (inversePulses pins delay phase) pins.2 initB =
      (pinLevelSeq (primaryPulses pins delay phase) pins.1 initA).map not := by
  refine ⟨fun h => ?_, ?_, ?_⟩
  · unfold primaryPulses
    rw [if_neg (not_lt.2 h)]
  · by_cases hbr : onPulseTime delay phase < offPulseTime delay phase <;>
      unfold primaryPulses inversePulses <;>
      simp [hbr]
  · by_cases hbr : onPulseTime delay phase < offPulseTime delay phase
    · unfold primaryPulses inversePulses
      rw [if_pos hbr, if_pos hbr, pinLevelSeq_clear_set_clear, pinLevelSeq_set_clear_set]
      simp
    · unfold primaryPulses inversePulses
      rw [if_neg hbr, if_neg hbr, pinLevelSeq_set_clear_set, pinLevelSeq_clear_set_clear]
      simp

/-- Witness for C3: at delay 3 microseconds and zero phase the frame total
is 14, so `on_pulse_time = 14 ≥ 1 = off_pulse_time` and the off-branch
shape is selected. -/
theorem c3_branch_and_complement_witness :
    primaryPulses (17, 27) (3 / 1000000) 0 =
      [⟨1 <<< 17, 0, offPulseTime (3 / 1000000) 0⟩,
       ⟨0, 1 <<< 17, frames_low⟩,
       ⟨1 <<< 17, 0, offRemainder (3 / 1000000) 0⟩] :=
  (c3_branch_and_complement (17, 27) (3 / 1000000) 0 false false).1 (by
    have hx : schedFrames (3 / 1000000) 0 = 14 := by
      norm_num [schedFrames, frames_per_second, frames_per_loop, transducer_latency]
    have hON : onPulseTime (3 / 1000000) 0 = 14 := by
      rw [onPulseTime, hx]
      norm_num [pyint, frames_per_loop]
    have hOFF : offPulseTime (3 / 1000000) 0 = 1 := by
      rw [offPulseTime, hx]
      norm_num [pyint, frames_high, frames_per_loop]
    rw [hON, hOFF]
    decide)

end UltrasonicDriver

namespace SharedBus

theorem collectEvents_error_of_neg (delayFn : Transducer → ℚ × ℚ → ℚ) (focus : ℚ × ℚ) :
    ∀ targets : List Transducer, (∃ t ∈ targets, delayFn t focus < 0) →
      collectEvents delayFn focus targets =
        .error "ValidationError: delay function returned a negative value"
  | [], h => absurd h (by simp)
  | t :: ts, h => by
    unfold collectEvents
    by_cases hneg : delayFn t focus < 0
    · rw [if_pos hneg]
    · rw [if_neg hneg]
      have hts : ∃ u ∈ ts, delayFn u focus < 0 := by
        rcases h with ⟨u, hu, hud⟩
        rcases List.mem_cons.1 hu with rfl | hu
        · exact absurd hud hneg
        · exact ⟨u, hu, hud⟩
      rw [collectEvents_error_of_neg delayFn focus ts hts]

/-- Claim C4 (spec-modelled): if the injected delay function returns a
negative value for some transducer, the single-pin `recalculate` fails
with a ValidationError, and no waveform or pulse data is committed by
that call: the queue holds nothing (it was cleared before the failed
validation), the pins are untouched, and playback is not started. -/
theorem c4_negative_delay_rejected (targets : List Transducer)
    (delayFn : Transducer → ℚ × ℚ → ℚ) (focus : ℚ × ℚ) (s : pigpio.EngineState)
    (h : ∃ t ∈ targets, delayFn t focus < 0) :
    (SharedBus.recalculate targets delayFn focus s).1 =
      .error "ValidationError: delay function returned a negative value" ∧
    (SharedBus.recalculate targets delayFn focus s).2.queued = [] ∧
    (SharedBus.recalculate targets delayFn focus s).2.sending = s.sending ∧
    (SharedBus.recalculate targets delayFn focus s).2.high = s.high := by
  unfold SharedBus.recalculate
  rw [collectEvents_error_of_neg delayFn focus targets h]
  exact ⟨rfl, rfl, rfl, rfl⟩

/-- Witness for C4: one transducer whose delay function reports -1 s,
against a mid-playback engine. -/
theorem c4_negative_delay_rejected_witness :
    (SharedBus.recalculate [⟨0, (0, 0), (17, 27)⟩] neg_delay_fn (0, 0)
        busyEngine).1 =
      .error "ValidationError: delay function returned a negative value" ∧
    (SharedBus.recalculate [⟨0, (0, 0), (17, 27)⟩] neg_delay_fn (0, 0)
        busyEngine).2.queued = [] :=
  ⟨(c4_negative_delay_rejected [⟨0, (0, 0), (17, 27)⟩] neg_delay_fn (0, 0)
      busyEngine ⟨⟨0, (0, 0), (17, 27)⟩, by simp, by norm_num [neg_delay_fn]⟩).1,
   (c4_negative_delay_rejected [⟨0, (0, 0), (17, 27)⟩] neg_delay_fn (0, 0)
      busyEngine ⟨⟨0, (0, 0), (17, 27)⟩, by simp, by norm_num [neg_delay_fn]⟩).2.1⟩

end SharedBus

namespace UltrasonicDriver

/-- Claim C5 (amended): the scheduler's frame total is
`delay * sample_rate + phase * loop_length + latency`; whenever that
total is non-negative (in particular for non-negative delay and phase),
truncating it to the integer `frames` gives
`on_frame = frames % loop_length` and
`off_frame = (frames + on_width) % loop_length`, both normalized into
`[0, loop_length)`.  (For a negative fractional total the code's
`off_frame = int(total + on_width) % loop_length` can differ, see the
counterexample.) -/
theorem c5_scheduler_frames (delay phase : ℚ)
    (h : 0 ≤ schedFrames delay phase) :
    schedFrames delay phase =
      delay * (frames_per_second : ℚ) + phase * (frames_per_loop : ℚ) +
        (transducer_latency : ℚ) ∧
    onPulseTime delay phase = pyint (schedFrames delay phase) % frames_per_loop ∧
    offPulseTime delay phase =
      (pyint (schedFrames delay phase) + frames_high) % frames_per_loop ∧
    (0 ≤ onPulseTime delay phase ∧ onPulseTime delay phase < frames_per_loop) ∧
    (0 ≤ offPulseTime delay phase ∧ offPulseTime delay phase < frames_per_loop) := by
  have hON := onPulseTime_eq delay phase
  have hOFF := offPulseTime_eq_of_nonneg delay phase h
  refine ⟨rfl, rfl, ?_, ?_, ?_⟩ <;>
    simp only [frames_per_loop, frames_high] <;>
    omega

/-- Witness for C5 at zero delay and phase (frame total 11 ≥ 0). -/
theorem c5_scheduler_frames_witness :
    onPulseTime 0 0 = pyint (schedFrames 0 0) % frames_per_loop ∧
    offPulseTime 0 0 = (pyint (schedFrames 0 0) + frames_high) % frames_per_loop ∧
    (0 ≤ onPulseTime 0 0 ∧ onPulseTime 0 0 < frames_per_loop) :=
  have h := c5_scheduler_frames 0 0 (by
    norm_num [schedFrames, frames_per_second, frames_per_loop, transducer_latency])
  ⟨h.2.1, h.2.2.1, h.2.2.2.1⟩

/-- Counterexample for C5 as stated: at delay -11.5 µs and zero phase the
frame total is -1/2, truncated to 0, so the claimed
`off_frame = (frames + on_width) mod loop_length` would be 12 — but the
code computes `int(-1/2 + 12) % 25 = 11`. -/
theorem c5_scheduler_frames_counterexample :
    offPulseTime (-23 / 2000000) 0 ≠
      (pyint (schedFrames (-23 / 2000000) 0) + frames_high) % frames_per_loop := by
  have hx : schedFrames (-23 / 2000000) 0 = -1 / 2 := by
    norm_num [schedFrames, frames_per_second, frames_per_loop, transducer_latency]
  have h1 : offPulseTime (-23 / 2000000) 0 = 11 := by
    rw [offPulseTime, hx]
    norm_num [pyint, frames_high, frames_per_loop]
  have hc : pyint (-1 / 2 : ℚ) = 0 := by norm_num [pyint]
  have h2 : (pyint (schedFrames (-23 / 2000000) 0) + frames_high) % frames_per_loop = 12 := by
    rw [hx, hc]
    decide
  rw [h1, h2]
  decide

end UltrasonicDriver

namespace UltrasonicDriver

theorem validatePins_ok_iff :
    ∀ (l used : List (ℕ × ℕ)), used.Nodup →
      (validatePins used l = .ok () ↔ (∀ pr ∈ l, pr ∈ used) ∧ l.Nodup)
  | [], used, _ => by simp [validatePins]
  | hd :: tl, used, hu => by
    unfold validatePins
    by_cases hmem : hd ∈ used
    · rw [if_pos hmem, validatePins_ok_iff tl (used.erase hd) (hu.erase hd)]
      constructor
      · rintro ⟨hall, hnd⟩
        refine ⟨?_, ?_⟩
        · intro pr hpr
          rcases List.mem_cons.1 hpr with rfl | hpr
          · exact hmem
          · exact ((hu.mem_erase_iff).1 (hall pr hpr)).2
        · refine List.nodup_cons.2 ⟨fun hcon => ?_, hnd⟩
          exact ((hu.mem_erase_iff).1 (hall hd hcon)).1 rfl
      · rintro ⟨hall, hnd⟩
        rcases List.nodup_cons.1 hnd with ⟨hhd, htl⟩
        refine ⟨?_, htl⟩
        intro pr hpr
        refine (hu.mem_erase_iff).2 ⟨fun hcon => hhd (hcon ▸ hpr), hall pr (List.mem_cons_of_mem _ hpr)⟩
    · rw [if_neg hmem]
      simp only [reduceCtorEq, false_iff, not_and]
      intro hall
      exact absurd (hall hd (List.mem_cons_self hd tl)) hmem

theorem validatePins_ok_or_error (l used : List (ℕ × ℕ)) :
    validatePins used l = .ok () ∨
      validatePins used l = .error "Pin pair is either invalid or has been used already." := by
  induction l generalizing used with
  | nil => exact Or.inl rfl
  | cons hd tl ih =>
    unfold validatePins
    by_cases hmem : hd ∈ used
    · rw [if_pos hmem]
      exact ih (used.erase hd)
    · rw [if_neg hmem]
      exact Or.inr rfl

theorem drive_pins_nodup : drive_pins.Nodup := by decide

/-- Claim C6 (amended): construction succeeds exactly when every
transducer's pin pair is in the device's legal pin-pair table and no pair
is assigned twice; otherwise it fails with the construction error — whose
message is fixed and does not name the offending assignment. -/
theorem c6_construction_validation (targets : List Transducer)
    (focus_fn : Transducer → ℚ × ℚ → ℚ) (phase_fn : Transducer → ℚ)
    (focus : ℚ × ℚ) (s : pigpio.EngineState) :
    ((initDriver targets focus_fn phase_fn focus s).1 = .ok () ↔
      (∀ pr ∈ targets.map Transducer.pins, pr ∈ drive_pins) ∧
        (targets.map Transducer.pins).Nodup) ∧
    (¬((∀ pr ∈ targets.map Transducer.pins, pr ∈ drive_pins) ∧
        (targets.map Transducer.pins).Nodup) →
      (initDriver targets focus_fn phase_fn focus s).1 =
        .error "Pin pair is either invalid or has been used already.") := by
  have hiff := validatePins_ok_iff (targets.map Transducer.pins) drive_pins drive_pins_nodup
  rcases validatePins_ok_or_error (targets.map Transducer.pins) drive_pins with hok | herr
  · constructor
    · rw [initDriver, hok]
      simp only [true_iff]
      exact hiff.1 hok
    · intro hcon
      exact absurd (hiff.1 hok) hcon
  · constructor
    · rw [initDriver, herr]
      simp only [reduceCtorEq, false_iff]
      intro hcon
      exact absurd (hiff.2 hcon) (by rw [herr]; simp)
    · intro _
      rw [initDriver, herr]

/-- Witness for C6: a single transducer on the illegal pair (1, 2) is
rejected. -/
theorem c6_construction_validation_witness :
    (initDriver [⟨0, (0, 0), (1, 2)⟩] focus_delay phase_diff_fn (0, 0) idleEngine).1 =
      .error "Pin pair is either invalid or has been used already." :=
  (c6_construction_validation [⟨0, (0, 0), (1, 2)⟩] focus_delay phase_diff_fn (0, 0)
    idleEngine).2 (by decide)

/-- Counterexample for C6 as stated ("naming the offending assignment"):
two different illegal assignments, (1, 2) and (3, 4), produce the very
same error value, so the error cannot be naming the offending
assignment. -/
theorem c6_construction_validation_counterexample :
    (initDriver [⟨0, (0, 0), (1, 2)⟩] focus_delay phase_diff_fn (0, 0) idleEngine).1 =
      (initDriver [⟨1, (0, 0), (3, 4)⟩] focus_delay phase_diff_fn (0, 0) idleEngine).1 ∧
    (initDriver [⟨0, (0, 0), (1, 2)⟩] focus_delay phase_diff_fn (0, 0) idleEngine).1 ≠
      .ok () := by
  constructor
  · rfl
  · intro h
    have h2 : (Except.error "Pin pair is either invalid or has been used already." :
        Except String Unit) = .ok () := h
    cases h2

end UltrasonicDriver

namespace UltrasonicDriver

theorem mem_high_foldl_write_low (L : List (ℕ × ℕ)) (s : pigpio.EngineState) (p : ℕ) :
    p ∈ (L.foldl (fun st pr => pigpio.write (pigpio.write st pr.1 false) pr.2 false) s).high ↔
      p ∈ s.high ∧ ∀ pr ∈ L, p ≠ pr.1 ∧ p ≠ pr.2 := by
  induction L generalizing s with
  | nil => simp
  | cons hd tl ih =>
    rw [List.foldl_cons, ih]
    simp only [pigpio.write, Bool.false_eq_true, if_false, List.mem_filter, bne_iff_ne,
      List.forall_mem_cons]
    tauto

/-- Claim C7: after `stop()` returns, every managed pin (both pins of every
drive pair) is driven logically low, whatever the engine state was —
in particular whether or not playback was active. -/
theorem c7_stop_drives_low (s : pigpio.EngineState) (p : ℕ)
    (hp : p ∈ managed_pins) : p ∉ (stop s).high := by
  intro hmem
  rw [stop, mem_high_foldl_write_low] at hmem
  rcases hmem with ⟨_, hall⟩
  rcases List.mem_flatMap.1 hp with ⟨pr, hpr, hppr⟩
  rcases hall pr hpr with ⟨h1, h2⟩
  simp only [List.mem_cons, List.not_mem_nil, or_false] at hppr
  rcases hppr with hppr | hppr
  · exact h1 hppr
  · exact h2 hppr

/-- Witness for C7: pin 17 is not high after stopping a mid-playback
engine on which it was high. -/
theorem c7_stop_drives_low_witness : 17 ∉ (stop busyEngine).high :=
  c7_stop_drives_low busyEngine 17 (by decide)

/-- Claim C8: the sync/trigger pin's submitted pulse sequence asserts the
pin high for exactly the first frame of the loop and low for the
remaining `frames_per_loop - 1` frames, and its durations total exactly
`frames_per_loop`. -/
theorem c8_sync_pulse (init : Bool) :
    pinLevelSeq syncPulses sync_pin init = true :: List.replicate 24 false ∧
    (syncPulses.map Pulse.delay).sum = frames_per_loop := by
  cases init <;> exact ⟨by decide, by decide⟩

/-- Claim C9: two invocations of `recalculate` with identical transducer
set, focal point, loop constants and identical pure delay/phase functions
produce bit-identical pulse sequences — the same masks and durations in
the same submission order. -/
theorem c9_recalculate_deterministic (targets₁ targets₂ : List Transducer)
    (focus_fn₁ focus_fn₂ : Transducer → ℚ × ℚ → ℚ)
    (phase_fn₁ phase_fn₂ : Transducer → ℚ) (focus₁ focus₂ : ℚ × ℚ)
    (ht : targets₁ = targets₂) (hf : focus_fn₁ = focus_fn₂)
    (hph : phase_fn₁ = phase_fn₂) (hfo : focus₁ = focus₂) :
    recalcWave targets₁ focus_fn₁ phase_fn₁ focus₁ =
      recalcWave targets₂ focus_fn₂ phase_fn₂ focus₂ := by
  rw [ht, hf, hph, hfo]

/-- Witness for C9 with the `hover.py` inputs on one transducer. -/
theorem c9_recalculate_deterministic_witness :
    recalcWave [⟨0, (0, 0), (17, 27)⟩] focus_delay phase_diff_fn (0, 0) =
      recalcWave [⟨0, (0, 0), (17, 27)⟩] focus_delay phase_diff_fn (0, 0) :=
  c9_recalculate_deterministic _ _ _ _ _ _ _ _ rfl rfl rfl rfl

/-- Claim C10: when the transducer list contains an illegal or duplicated
pin-pair assignment, construction fails before the engine connection is
opened, before any pin mode is set and before any pulse is submitted:
the engine state returned alongside the error is exactly the input
state. -/
theorem c10_invalid_construction_no_mutation (targets : List Transducer)
    (focus_fn : Transducer → ℚ × ℚ → ℚ) (phase_fn : Transducer → ℚ)
    (focus : ℚ × ℚ) (s : pigpio.EngineState)
    (h : ¬((∀ pr ∈ targets.map Transducer.pins, pr ∈ drive_pins) ∧
        (targets.map Transducer.pins).Nodup)) :
    initDriver targets focus_fn phase_fn focus s =
      (.error "Pin pair is either invalid or has been used already.", s) := by
  rcases validatePins_ok_or_error (targets.map Transducer.pins) drive_pins with hok | herr
  · exact absurd ((validatePins_ok_iff (targets.map Transducer.pins) drive_pins
      drive_pins_nodup).1 hok) h
  · rw [initDriver, herr]

/-- Witness for C10: a duplicated legal pair (17, 27) leaves a
mid-playback engine untouched. -/
theorem c10_invalid_construction_no_mutation_witness :
    initDriver [⟨0, (0, 0), (17, 27)⟩, ⟨1, (0, 0), (17, 27)⟩] focus_delay phase_diff_fn
        (0, 0) busyEngine =
      (.error "Pin pair is either invalid or has been used already.", busyEngine) :=
  c10_invalid_construction_no_mutation _ _ _ _ _ (by decide)

end UltrasonicDriver
